import Mathlib

/-!  Verification of the scenario-simulation engine of a personal budget
planner.  Shallow embedding of `src/managers/scenario_simulator.py` together
with the planning-month generator of `src/config.py`.

Modelling conventions:
* Python `dict`s are embedded as association lists with unique keys
  (`List (k × a)`), preserving insertion order: `d[k] = v` updates the first
  occurrence of `k` in place or appends a fresh entry at the end, exactly as
  a Python dict does; `d.get(k, v0)` reads the first occurrence.
* Monetary amounts (Python `float`) are embedded as `ℚ`; every quantity the
  engine computes is produced from its inputs by `+ - * /`, so the rational
  model is exact and an identity that is exact over `ℚ` in particular holds
  to within the spec's 1e-6 floating-point tolerance.
* `apply_change` mutates its `budgets` argument in place and returns `None`
  in Python; the embedding is the standard state-passing translation: the
  Lean function returns the post-call state of the caller's `budgets`
  object.
* A Python value that may be absent from a change dict (`change.get(key)`)
  is an `Option`.  `change.get('category')` may yield `None`, and Python
  happily uses `None` as a dict key, so category keys are `Option String`.
  Month keys of the budget matrix are plain strings (the budget store is
  keyed by month strings), and `None in budgets` is `False` in Python,
  which the embedding mirrors by matching on the optional month first.
* Python set iteration order (used for `all_categories`) is unspecified;
  the embedding uses `List.dedup`.  Every consumer of that collection
  (sums, membership) is order-independent, so this choice is immaterial.
-/

/-! ### Association-list model of Python dicts -/

/-- Python `d.get(k)`: the value at the first occurrence of key `k`. -/
def dget {κ α : Type} [DecidableEq κ] : List (κ × α) → κ → Option α
  | [], _ => none
  | p :: rest, k => if p.1 = k then some p.2 else dget rest k

/-- Python `d[k] = v`: update the first occurrence of `k` in place,
else append `(k, v)` at the end. -/
def dset {κ α : Type} [DecidableEq κ] : List (κ × α) → κ → α → List (κ × α)
  | [], k, v => [(k, v)]
  | p :: rest, k, v => if p.1 = k then (k, v) :: rest else p :: dset rest k v

/-- Proof helper: remove the first occurrence of key `k`. -/
def dkerase {κ α : Type} [DecidableEq κ] : List (κ × α) → κ → List (κ × α)
  | [], _ => []
  | p :: rest, k => if p.1 = k then rest else p :: dkerase rest k

/-- Python `list(d.keys())`. -/
def keysOf {κ α : Type} (d : List (κ × α)) : List κ := d.map Prod.fst

/-- Python `sum(d.values())`. -/
def sumVals {κ : Type} (d : List (κ × ℚ)) : ℚ := (d.map Prod.snd).sum

/-- A Python dict never holds two entries with the same key. -/
def NodupKeys {κ α : Type} (d : List (κ × α)) : Prop := (keysOf d).Nodup

/-! ### Planning horizon (`src/config.py`) -/

def month_names : List String :=
  ["January", "February", "March", "April", "May", "June",
   "July", "August", "September", "October", "November", "December"]

/-- Embeds `generate_planning_months` from `src/config.py`: 24 consecutive months
starting August 2025, each rendered as the first three letters of the month
name, a dash, and the last two digits of the year (`"Aug-25"` … `"Jul-27"`). -/
def generate_planning_months : List String :=
  (List.range 24).map (fun i =>
    let year := 2025 + (8 + i - 1) / 12
    let month := (8 + i - 1) % 12 + 1
    let month_name := month_names.getD (month - 1) ""
    month_name.take 3 ++ "-" ++ (toString year).drop 2)

def PLANNING_MONTHS : List String := generate_planning_months

/-! ### Budget snapshots and changes -/

/-- A category key: `change.get('category')`, possibly `None`. -/
abbrev Cat := Option String

abbrev MonthMap := List (Cat × ℚ)

/-- The month × category budget matrix (`app_data.budgets`). -/
abbrev Budgets := List (String × MonthMap)

/-- Python `budgets.get(m, \x7b\x7d).get(c)`: the cell of the matrix at month `m`,
category `c`, `none` when absent. -/
def getCell (b : Budgets) (m : String) (c : Cat) : Option ℚ :=
  dget ((dget b m).getD []) c

/-- A change dict.  Each field is `change.get('…')`; `none` models an absent
key. -/
structure Change where
  type : Option String := none
  category : Cat := none
  start_month : Option String := none
  end_month : Option String := none
  amount_change : Option ℚ := none
  event_month : Option String := none
  amount : Option ℚ := none
  adjustment_type : Option String := none
deriving DecidableEq

/-- Python `PLANNING_MONTHS.index(start_month) if start_month in PLANNING_MONTHS
else 0` — a missing (`None`) month is never in the list. -/
def startIdx (m : Option String) : Nat :=
  match m with
  | some s => if s ∈ PLANNING_MONTHS then PLANNING_MONTHS.indexOf s else 0
  | none => 0

/-- Python `PLANNING_MONTHS.index(end_month) if end_month in PLANNING_MONTHS
else len(PLANNING_MONTHS) - 1`. -/
def endIdx (m : Option String) : Nat :=
  match m with
  | some s => if s ∈ PLANNING_MONTHS then PLANNING_MONTHS.indexOf s
              else PLANNING_MONTHS.length - 1
  | none => PLANNING_MONTHS.length - 1

/-- Python `range(start_idx, end_idx + 1)`. -/
def idxRange (s e : Nat) : List Nat := List.range' s (e + 1 - s)

/-- One iteration of the `budget_change` month loop of `apply_change`:
ensure the month row and the category cell exist, then add
`amount_change` to the cell. -/
def bumpStep (category : Cat) (amount_change : ℚ) (b : Budgets) (i : Nat) :
    Budgets :=
  let month := PLANNING_MONTHS.getD i ""
  let b := if (dget b month).isSome then b else dset b month []
  let mm := (dget b month).getD []
  let mm := if (dget mm category).isSome then mm else dset mm category 0
  dset b month (dset mm category ((dget mm category).getD 0 + amount_change))

/-- One iteration of the `pause`/`double` month loop of `apply_change`:
when the month row and the category cell both exist, replace the cell's
value by `f` of it (`f = const 0` for pause, `f = (· * 2)` for double);
otherwise do nothing. -/
def adjStep (category : Cat) (f : ℚ → ℚ) (b : Budgets) (i : Nat) : Budgets :=
  let month := PLANNING_MONTHS.getD i ""
  match dget b month with
  | some mm =>
    match dget mm category with
    | some v => dset b month (dset mm category (f v))
    | none => b
  | none => b

/-- Embeds `ScenarioSimulator.apply_change`.  The Python method mutates `budgets`
in place and returns `None`; this embedding returns the post-call state of
the caller's `budgets` object. -/
def apply_change (budgets : Budgets) (change : Change) : Budgets :=
  let change_type := change.type.getD "budget_change"
  let category := change.category
  let start_month := change.start_month
  let end_month := change.end_month
  if change_type = "budget_change" then
    let amount_change := change.amount_change.getD 0
    (idxRange (startIdx start_month) (endIdx end_month)).foldl
      (bumpStep category amount_change) budgets
  else if change_type = "one_time_event" then
    -- `event_month = change.get('event_month', start_month)`
    let event_month := match change.event_month with
      | some m => some m
      | none => start_month
    let amount := change.amount.getD 0
    match event_month with
    | some em =>
      -- `if event_month in budgets:` …
      match dget budgets em with
      | some mm =>
        let mm := if (dget mm category).isSome then mm else dset mm category 0
        dset budgets em (dset mm category ((dget mm category).getD 0 + amount))
      | none => budgets
    | none => budgets  -- `None in budgets` is `False`
  else if change_type = "investment_adjustment" then
    let adjustment_type := change.adjustment_type.getD "pause"
    if adjustment_type = "pause" then
      (idxRange (startIdx start_month) (endIdx end_month)).foldl
        (adjStep category (fun _ => 0)) budgets
    else if adjustment_type = "double" then
      (idxRange (startIdx start_month) (endIdx end_month)).foldl
        (adjStep category (· * 2)) budgets
    else budgets
  else budgets

/-! ### Impact calculation -/

structure MonthEntry where
  original_total : ℚ
  simulated_total : ℚ
  change : ℚ
  change_percent : ℚ
deriving DecidableEq

structure CatEntry where
  original_total : ℚ
  simulated_total : ℚ
  change : ℚ
deriving DecidableEq

structure Summary where
  net_change : ℚ
  affected_periods : Nat
  impact_type : String
  recommendation : String
  risk_level : String
deriving DecidableEq

/-- Embeds `ScenarioSimulator.generate_impact_summary`.  The Python method reads
only `impact['total_impact']` and `impact['affected_months']` of its
arguments (its `scenario` argument is unused), so the embedding takes those
two fields directly.  The source fills `recommendation` and `risk_level`
inside one `if/elif/else` chain on `abs(total_impact)`; writing the chain
once per field is the same function. -/
def generate_impact_summary (total_impact : ℚ) (affected_months : Nat) :
    Summary :=
  { net_change := total_impact
    affected_periods := affected_months
    impact_type :=
      if total_impact > 0 then "increase"
      else if total_impact < 0 then "decrease"
      else "neutral"
    recommendation :=
      if |total_impact| < 10000 then "Low impact scenario - manageable changes"
      else if |total_impact| < 50000 then "Moderate impact - review budget allocations"
      else "High impact scenario - significant budget review required"
    risk_level :=
      if |total_impact| < 10000 then "low"
      else if |total_impact| < 50000 then "medium"
      else "high" }

/-- Accumulator of the per-month loop of `calculate_impact`. -/
structure MonthAcc where
  monthly_changes : List (String × MonthEntry)
  total_impact : ℚ
  affected_months : Nat
deriving DecidableEq

/-- One iteration of the `for month in PLANNING_MONTHS` loop of
`calculate_impact`. -/
def monthStep (original simulated : Budgets) (acc : MonthAcc) (month : String) :
    MonthAcc :=
  let original_month := (dget original month).getD []
  let simulated_month := (dget simulated month).getD []
  let original_total := sumVals original_month
  let simulated_total := sumVals simulated_month
  let month_change := simulated_total - original_total
  if month_change ≠ 0 then
    { monthly_changes := acc.monthly_changes ++
        [(month,
          { original_total := original_total
            simulated_total := simulated_total
            change := month_change
            change_percent :=
              if original_total > 0 then month_change / original_total * 100
              else 0 })]
      total_impact := acc.total_impact + month_change
      affected_months := acc.affected_months + 1 }
  else acc

def monthlyPart (original simulated : Budgets) : MonthAcc :=
  PLANNING_MONTHS.foldl (monthStep original simulated) ⟨[], 0, 0⟩

/-- The `all_categories` set of `calculate_impact`: every category key seen
in any month of either snapshot (Python builds a `set`; iteration order of
a set is unspecified and every use below is order-independent). -/
def all_categories (original simulated : Budgets) : List Cat :=
  (((original.map Prod.snd) ++ (simulated.map Prod.snd)).map
    (fun mm => mm.map Prod.fst)).flatten.dedup

/-- Python `sum(month_budgets.get(category, 0) for month_budgets in b.values())`. -/
def catTotal (b : Budgets) (category : Cat) : ℚ :=
  ((b.map Prod.snd).map (fun mm => (dget mm category).getD 0)).sum

/-- One iteration of the `for category in all_categories` loop of
`calculate_impact`. -/
def catStep (original simulated : Budgets) (acc : List (Cat × CatEntry))
    (category : Cat) : List (Cat × CatEntry) :=
  let original_cat_total := catTotal original category
  let simulated_cat_total := catTotal simulated category
  let cat_change := simulated_cat_total - original_cat_total
  if cat_change ≠ 0 then
    acc ++ [(category,
      { original_total := original_cat_total
        simulated_total := simulated_cat_total
        change := cat_change })]
  else acc

def categoryPart (original simulated : Budgets) : List (Cat × CatEntry) :=
  (all_categories original simulated).foldl (catStep original simulated) []

structure Impact where
  monthly_changes : List (String × MonthEntry)
  total_impact : ℚ
  affected_months : Nat
  category_impact : List (Cat × CatEntry)
  summary : Summary
deriving DecidableEq

/-- Embeds `ScenarioSimulator.calculate_impact` (its `scenario` argument is passed
through to `generate_impact_summary`, which ignores it).  The Python
`try/except` wrapper is dead on this path — every operation in the body is
total — so the embedding is the plain computation. -/
def calculate_impact (original simulated : Budgets) : Impact :=
  let ma := monthlyPart original simulated
  { monthly_changes := ma.monthly_changes
    total_impact := ma.total_impact
    affected_months := ma.affected_months
    category_impact := categoryPart original simulated
    summary := generate_impact_summary ma.total_impact ma.affected_months }

/-! ### Simulation orchestration -/

/-- The result dict of a successful `simulate_scenario` call: the scenario's
changes echoed back, the impact report, and the two snapshots. -/
structure SimResult where
  changes : List Change
  impact : Impact
  original_budgets : Budgets
  simulated_budgets : Budgets
deriving DecidableEq

/-- The `for change in scenario['changes']` loop of `simulate_scenario`:
each change is applied to the output of the previous one. -/
def applyChanges (b : Budgets) (cs : List Change) : Budgets :=
  cs.foldl apply_change b

/-- Embeds `ScenarioSimulator.simulate_scenario`.  `scenarios` is the scenario
store (`app_data.scenarios`, id → list of changes) and `budgets` the budget
store's current state (`app_data.budgets`) at call time.  The source deep
copies `budgets` into `original_budgets` and `simulated_budgets` and then
mutates only the latter; values make the copies implicit. An unknown id
yields the `\x7b'error': 'Scenario not found'\x7d` dict, embedded as
`Except.error`. -/
def simulate_scenario (scenarios : List (String × List Change))
    (budgets : Budgets) (scenario_id : String) : Except String SimResult :=
  match dget scenarios scenario_id with
  | none => Except.error "Scenario not found"
  | some chs =>
    let original_budgets := budgets
    let simulated_budgets := applyChanges budgets chs
    Except.ok
      { changes := chs
        impact := calculate_impact original_budgets simulated_budgets
        original_budgets := original_budgets
        simulated_budgets := simulated_budgets }

/-! ### Sanity checks on the embedding -/

theorem planning_months_first : PLANNING_MONTHS.getD 0 "" = "Aug-25" := by decide

theorem planning_months_last : PLANNING_MONTHS.getD 23 "" = "Jul-27" := by decide

theorem planning_months_len : PLANNING_MONTHS.length = 24 := by decide

theorem planning_months_nodup : PLANNING_MONTHS.Nodup := by decide

theorem pm_eq : PLANNING_MONTHS =
    ["Aug-25", "Sep-25", "Oct-25", "Nov-25", "Dec-25", "Jan-26",
     "Feb-26", "Mar-26", "Apr-26", "May-26", "Jun-26", "Jul-26",
     "Aug-26", "Sep-26", "Oct-26", "Nov-26", "Dec-26", "Jan-27",
     "Feb-27", "Mar-27", "Apr-27", "May-27", "Jun-27", "Jul-27"] := by decide

/-! ### Dictionary lemmas -/

theorem dget_dset_self {κ α : Type} [DecidableEq κ] (d : List (κ × α)) (k : κ)
    (v : α) : dget (dset d k v) k = some v := by
  induction d with
  | nil => simp [dget, dset]
  | cons p rest ih =>
    by_cases h : p.1 = k
    · simp [dget, dset, h]
    · simp [dget, dset, h, ih]

theorem dget_dset_ne {κ α : Type} [DecidableEq κ] (d : List (κ × α))
    {k k' : κ} (v : α) (h : k' ≠ k) : dget (dset d k v) k' = dget d k' := by
  induction d with
  | nil => simp [dget, dset, Ne.symm h]
  | cons p rest ih =>
    by_cases hp : p.1 = k
    · simp [dget, dset, hp, Ne.symm h]
    · simp [dget, dset, hp, ih]

theorem dget_eq_none_of_not_mem {κ α : Type} [DecidableEq κ]
    {d : List (κ × α)} {k : κ} (h : k ∉ keysOf d) : dget d k = none := by
  induction d with
  | nil => rfl
  | cons p rest ih =>
    have hne : ¬ p.1 = k := fun e => h (by simp [keysOf, e])
    have h2 : k ∉ keysOf rest := fun e => h (by simp [keysOf] at e ⊢; exact .inr e)
    simp [dget, hne, ih h2]

theorem mem_keysOf_of_dget_isSome {κ α : Type} [DecidableEq κ]
    {d : List (κ × α)} {k : κ} (h : (dget d k).isSome) : k ∈ keysOf d := by
  by_contra hc
  rw [dget_eq_none_of_not_mem hc] at h
  simp at h

theorem mem_of_dget_eq_some {κ α : Type} [DecidableEq κ]
    {d : List (κ × α)} {k : κ} {v : α} (h : dget d k = some v) : (k, v) ∈ d := by
  induction d with
  | nil => simp [dget] at h
  | cons p rest ih =>
    by_cases hp : p.1 = k
    · simp [dget, hp] at h
      subst hp
      subst h
      exact List.mem_cons_self _ _
    · simp [dget, hp] at h
      exact List.mem_cons_of_mem _ (ih h)

theorem dget_dkerase_ne {κ α : Type} [DecidableEq κ] (d : List (κ × α))
    {k k' : κ} (h : k' ≠ k) : dget (dkerase d k) k' = dget d k' := by
  induction d with
  | nil => rfl
  | cons p rest ih =>
    by_cases hp : p.1 = k
    · simp [dget, dkerase, hp, Ne.symm h]
    · simp [dget, dkerase, hp, ih]

theorem keysOf_dkerase_sublist {κ α : Type} [DecidableEq κ]
    (d : List (κ × α)) (k : κ) : (keysOf (dkerase d k)).Sublist (keysOf d) := by
  induction d with
  | nil => simp [dkerase, keysOf]
  | cons p rest ih =>
    by_cases hp : p.1 = k
    · simp [dkerase, keysOf, hp]
    · simpa [dkerase, keysOf, hp] using ih.cons₂ p.1

theorem nodupKeys_dkerase {κ α : Type} [DecidableEq κ]
    {d : List (κ × α)} (k : κ) (hd : NodupKeys d) : NodupKeys (dkerase d k) :=
  List.Nodup.sublist (keysOf_dkerase_sublist d k) hd

theorem not_mem_keysOf_dkerase {κ α : Type} [DecidableEq κ]
    {d : List (κ × α)} {k : κ} (hd : NodupKeys d) :
    k ∉ keysOf (dkerase d k) := by
  induction d with
  | nil => simp [dkerase, keysOf]
  | cons p rest ih =>
    have hd1 : p.1 ∉ keysOf rest := (List.nodup_cons.mp hd).1
    have hd2 : NodupKeys rest := (List.nodup_cons.mp hd).2
    by_cases hp : p.1 = k
    · simpa [dkerase, hp] using hp ▸ hd1
    · intro hm
      simp [dkerase, keysOf, hp] at hm
      rcases hm with hm | hm
      · exact hp hm.symm
      · exact ih hd2 (by simpa [keysOf] using hm)

theorem sum_map_dkerase {κ α : Type} [DecidableEq κ] (f : α → ℚ)
    {d : List (κ × α)} {k : κ} {v : α} (h : dget d k = some v) :
    (d.map (fun p => f p.2)).sum
      = f v + ((dkerase d k).map (fun p => f p.2)).sum := by
  induction d with
  | nil => simp [dget] at h
  | cons p rest ih =>
    by_cases hp : p.1 = k
    · simp [dget, hp] at h
      simp [dkerase, hp, h]
    · simp [dget, hp] at h
      simp [dkerase, hp, ih h]
      ring

/-! ### Summation lemmas -/

theorem sum_map_sub' {β : Type} (L : List β) (f g : β → ℚ) :
    (L.map (fun x => f x - g x)).sum = (L.map f).sum - (L.map g).sum := by
  induction L with
  | nil => simp
  | cons x rest ih => simp [ih]; ring

theorem dget_isSome_of_mem_keysOf {κ α : Type} [DecidableEq κ]
    {d : List (κ × α)} {k : κ} (h : k ∈ keysOf d) : (dget d k).isSome := by
  induction d with
  | nil => simp [keysOf] at h
  | cons p rest ih =>
    by_cases hp : p.1 = k
    · simp [dget, hp]
    · have : k ∈ keysOf rest := by
        simp [keysOf] at h ⊢
        rcases h with h | h
        · exact absurd h.symm hp
        · exact h
      simp [dget, hp, ih this]

/-- Summing a function of the looked-up values over a duplicate-free list of
keys that covers the dict's own keys is summing it over the dict's values
(the default `z` contributing nothing). -/
theorem sum_over_keys {κ α : Type} [DecidableEq κ] (K : List κ)
    (d : List (κ × α)) (f : α → ℚ) (z : α) (hz : f z = 0) (hK : K.Nodup)
    (hd : NodupKeys d) (hsub : keysOf d ⊆ K) :
    (K.map (fun k => f ((dget d k).getD z))).sum
      = (d.map (fun p => f p.2)).sum := by
  induction K generalizing d with
  | nil =>
    have hnil : d = [] := by
      cases d with
      | nil => rfl
      | cons p rest =>
        exact absurd (hsub (show p.1 ∈ keysOf (p :: rest) by simp [keysOf]))
          (by simp)
    simp [hnil]
  | cons k0 K' ih =>
    have hK' : K'.Nodup := (List.nodup_cons.mp hK).2
    have hk0 : k0 ∉ K' := (List.nodup_cons.mp hK).1
    cases hg : dget d k0 with
    | none =>
      have hmem : k0 ∉ keysOf d := fun hm => by
        have hs := dget_isSome_of_mem_keysOf hm
        rw [hg] at hs
        simp at hs
      have hsub' : keysOf d ⊆ K' := by
        intro x hx
        rcases List.mem_cons.mp (hsub hx) with h1 | h2
        · exact absurd (h1 ▸ hx) hmem
        · exact h2
      simp only [List.map_cons, List.sum_cons, hg, Option.getD_none, hz,
        zero_add]
      exact ih d hK' hd hsub'
    | some v =>
      have hmem' : k0 ∉ keysOf (dkerase d k0) := not_mem_keysOf_dkerase hd
      have hdk : NodupKeys (dkerase d k0) := nodupKeys_dkerase k0 hd
      have hsubk : keysOf (dkerase d k0) ⊆ K' := by
        intro x hx
        have hxd : x ∈ keysOf d := (keysOf_dkerase_sublist d k0).subset hx
        rcases List.mem_cons.mp (hsub hxd) with h1 | h2
        · exact absurd (h1 ▸ hx) hmem'
        · exact h2
      have hmap : K'.map (fun k => f ((dget d k).getD z))
          = K'.map (fun k => f ((dget (dkerase d k0) k).getD z)) := by
        apply List.map_congr_left
        intro x hx
        rw [dget_dkerase_ne d (fun (e : x = k0) => hk0 (e ▸ hx))]
      simp only [List.map_cons, List.sum_cons, hg, Option.getD_some]
      rw [hmap, ih (dkerase d k0) hK' hdk hsubk, sum_map_dkerase f hg]

/-- Finite double sums commute. -/
theorem sum_map_comm {κ β : Type} (K : List κ) (L : List β) (g : β → κ → ℚ) :
    (K.map (fun k => (L.map (fun x => g x k)).sum)).sum
      = (L.map (fun x => (K.map (fun k => g x k)).sum)).sum := by
  induction K with
  | nil => simp
  | cons k0 K' ih =>
    simp only [List.map_cons, List.sum_cons, ih]
    exact (List.sum_map_add).symm

/-! ### Structure of the impact folds -/

/-- Python `sum(b.get(month, \x7b\x7d).values())`. -/
def monthTotal (b : Budgets) (month : String) : ℚ :=
  sumVals ((dget b month).getD [])

theorem monthStep_invariant (o s : Budgets) (acc : MonthAcc) (m : String) :
    (monthStep o s acc m).total_impact
        - ((monthStep o s acc m).monthly_changes.map (fun p => p.2.change)).sum
      = acc.total_impact
        - (acc.monthly_changes.map (fun p => p.2.change)).sum := by
  simp only [monthStep]
  split
  · simp
  · rfl

theorem foldl_monthStep_total_eq_sum (o s : Budgets) (months : List String)
    (acc : MonthAcc) :
    (months.foldl (monthStep o s) acc).total_impact
        - ((months.foldl (monthStep o s) acc).monthly_changes.map
            (fun p => p.2.change)).sum
      = acc.total_impact
        - (acc.monthly_changes.map (fun p => p.2.change)).sum := by
  induction months generalizing acc with
  | nil => rfl
  | cons m rest ih => rw [List.foldl_cons, ih, monthStep_invariant]

theorem monthStep_total (o s : Budgets) (acc : MonthAcc) (m : String) :
    (monthStep o s acc m).total_impact
      = acc.total_impact + (monthTotal s m - monthTotal o m) := by
  simp only [monthStep, monthTotal]
  split
  · rfl
  · next h =>
    rw [not_not] at h
    simp [h]

theorem foldl_monthStep_total (o s : Budgets) (months : List String)
    (acc : MonthAcc) :
    (months.foldl (monthStep o s) acc).total_impact
      = acc.total_impact
        + (months.map (fun m => monthTotal s m - monthTotal o m)).sum := by
  induction months generalizing acc with
  | nil => simp
  | cons m rest ih =>
    rw [List.foldl_cons, ih, monthStep_total]
    simp
    ring

theorem catStep_sum (o s : Budgets) (acc : List (Cat × CatEntry)) (c : Cat) :
    ((catStep o s acc c).map (fun p => p.2.change)).sum
      = (acc.map (fun p => p.2.change)).sum
        + (catTotal s c - catTotal o c) := by
  simp only [catStep]
  split
  · simp
  · next h =>
    rw [not_not] at h
    simp [h]

theorem foldl_catStep_sum (o s : Budgets) (cats : List Cat)
    (acc : List (Cat × CatEntry)) :
    ((cats.foldl (catStep o s) acc).map (fun p => p.2.change)).sum
      = (acc.map (fun p => p.2.change)).sum
        + (cats.map (fun c => catTotal s c - catTotal o c)).sum := by
  induction cats generalizing acc with
  | nil => simp
  | cons c rest ih =>
    rw [List.foldl_cons, ih, catStep_sum]
    simp
    ring

theorem total_eq_sum_monthly (o s : Budgets) :
    (monthlyPart o s).total_impact
      = ((monthlyPart o s).monthly_changes.map (fun p => p.2.change)).sum := by
  have h := foldl_monthStep_total_eq_sum o s PLANNING_MONTHS ⟨[], 0, 0⟩
  unfold monthlyPart
  simp at h
  linarith

theorem total_eq_sum_deltas (o s : Budgets) :
    (monthlyPart o s).total_impact
      = (PLANNING_MONTHS.map (fun m => monthTotal s m - monthTotal o m)).sum := by
  have h := foldl_monthStep_total o s PLANNING_MONTHS ⟨[], 0, 0⟩
  unfold monthlyPart
  simpa using h

theorem catSum_eq_sum_deltas (o s : Budgets) :
    ((categoryPart o s).map (fun p => p.2.change)).sum
      = ((all_categories o s).map
          (fun c => catTotal s c - catTotal o c)).sum := by
  have h := foldl_catStep_sum o s (all_categories o s) []
  unfold categoryPart
  simpa using h

theorem sum_monthTotal (b : Budgets) (hb : NodupKeys b)
    (hcov : keysOf b ⊆ PLANNING_MONTHS) :
    (PLANNING_MONTHS.map (fun m => monthTotal b m)).sum
      = (b.map (fun p => sumVals p.2)).sum := by
  unfold monthTotal
  exact sum_over_keys PLANNING_MONTHS b sumVals [] rfl planning_months_nodup
    hb hcov

theorem keysOf_subset_all_categories (o s : Budgets) (p : String × MonthMap)
    (hp : p ∈ o ∨ p ∈ s) : keysOf p.2 ⊆ all_categories o s := by
  intro c hc
  unfold all_categories
  rw [List.mem_dedup, List.mem_flatten]
  refine ⟨keysOf p.2, List.mem_map.mpr ⟨p.2, ?_, rfl⟩, hc⟩
  rw [List.mem_append]
  rcases hp with h | h
  · exact .inl (List.mem_map.mpr ⟨p, h, rfl⟩)
  · exact .inr (List.mem_map.mpr ⟨p, h, rfl⟩)

theorem sum_catTotal (b : Budgets) (cats : List Cat) (hc : cats.Nodup)
    (hin : ∀ p ∈ b, NodupKeys p.2)
    (hcov : ∀ p ∈ b, keysOf p.2 ⊆ cats) :
    (cats.map (fun c => catTotal b c)).sum
      = (b.map (fun p => sumVals p.2)).sum := by
  unfold catTotal
  rw [sum_map_comm cats (b.map Prod.snd) (fun mm c => (dget mm c).getD 0)]
  rw [List.map_map]
  apply congrArg List.sum
  apply List.map_congr_left
  intro p hp
  exact sum_over_keys cats p.2 id 0 rfl hc (hin p hp) (hcov p hp)

/-! ### Claim C1 -/

/-- Python-dict well-formedness of a snapshot: no duplicate month keys and
no duplicate category keys within any month (every dict read from a Python
program satisfies this by construction). -/
def WF (b : Budgets) : Prop := NodupKeys b ∧ ∀ p ∈ b, NodupKeys p.2

instance (b : Budgets) : Decidable (WF b) := by
  unfold WF NodupKeys
  infer_instance

/-- Claim **C1**.  Total-partition equality: for snapshots covering the planning
horizon (all month keys drawn from it), the report of `calculate_impact`
has `total_impact` equal to the sum of the `change` fields of
`monthly_changes` and to the sum of the `change` fields of
`category_impact`, each to within `1e-6`.  Over the exact rational model
both equalities are exact, so the tolerance bound holds a fortiori. -/
theorem c1_total_partition_equality (original simulated : Budgets)
    (ho : WF original) (hs : WF simulated)
    (hco : keysOf original ⊆ PLANNING_MONTHS)
    (hcs : keysOf simulated ⊆ PLANNING_MONTHS) :
    |(calculate_impact original simulated).total_impact
        - ((calculate_impact original simulated).monthly_changes.map
            (fun p => p.2.change)).sum| ≤ 1 / 1000000
    ∧ |(calculate_impact original simulated).total_impact
        - ((calculate_impact original simulated).category_impact.map
            (fun p => p.2.change)).sum| ≤ 1 / 1000000 := by
  have hfields :
      (calculate_impact original simulated).total_impact
        = (monthlyPart original simulated).total_impact
      ∧ (calculate_impact original simulated).monthly_changes
        = (monthlyPart original simulated).monthly_changes
      ∧ (calculate_impact original simulated).category_impact
        = categoryPart original simulated := by
    unfold calculate_impact
    exact ⟨rfl, rfl, rfl⟩
  rw [hfields.1, hfields.2.1, hfields.2.2]
  constructor
  · rw [total_eq_sum_monthly original simulated]
    simp
  · have hcross :
        (PLANNING_MONTHS.map
          (fun m => monthTotal simulated m - monthTotal original m)).sum
          = ((all_categories original simulated).map
              (fun c => catTotal simulated c - catTotal original c)).sum := by
      rw [sum_map_sub' PLANNING_MONTHS (fun m => monthTotal simulated m)
        (fun m => monthTotal original m)]
      rw [sum_map_sub' (all_categories original simulated)
        (fun c => catTotal simulated c) (fun c => catTotal original c)]
      rw [sum_monthTotal original ho.1 hco, sum_monthTotal simulated hs.1 hcs]
      rw [sum_catTotal original (all_categories original simulated)
        (List.nodup_dedup _) ho.2
        (fun p hp => keysOf_subset_all_categories original simulated p (.inl hp))]
      rw [sum_catTotal simulated (all_categories original simulated)
        (List.nodup_dedup _) hs.2
        (fun p hp => keysOf_subset_all_categories original simulated p (.inr hp))]
    rw [total_eq_sum_deltas original simulated, hcross,
      catSum_eq_sum_deltas original simulated]
    simp

def c1B0 : Budgets :=
  [("Aug-25", [(some "Food", 5000), (some "Rent", 15000)]),
   ("Sep-25", [(some "Food", 5000), (some "Rent", 15000)])]

def c1B1 : Budgets :=
  [("Aug-25", [(some "Food", 7000), (some "Rent", 15000)]),
   ("Sep-25", [(some "Food", 5000), (some "Rent", 14000)])]

theorem c1_witness :
    WF c1B0 ∧ WF c1B1
    ∧ keysOf c1B0 ⊆ PLANNING_MONTHS ∧ keysOf c1B1 ⊆ PLANNING_MONTHS
    ∧ |(calculate_impact c1B0 c1B1).total_impact
        - ((calculate_impact c1B0 c1B1).monthly_changes.map
            (fun p => p.2.change)).sum| ≤ 1 / 1000000
    ∧ |(calculate_impact c1B0 c1B1).total_impact
        - ((calculate_impact c1B0 c1B1).category_impact.map
            (fun p => p.2.change)).sum| ≤ 1 / 1000000 :=
  ⟨by decide, by decide, by decide, by decide,
    (c1_total_partition_equality c1B0 c1B1 (by decide) (by decide)
      (by decide) (by decide)).1,
    (c1_total_partition_equality c1B0 c1B1 (by decide) (by decide)
      (by decide) (by decide)).2⟩

/-! ### Claim C6 -/

/-- Claim **C6**.  Risk classification thresholds: `risk_level` is a pure
function of `|total_impact|` — the if-chain with thresholds 10000 and
50000 — and the four boundary inputs 9999.99, 10000.00, 49999.99 and
50000.00 classify as low, medium, medium, high (the source spells the
levels in lowercase). -/
theorem c6_risk_thresholds :
    (∀ (t : ℚ) (n : Nat), (generate_impact_summary t n).risk_level
      = if |t| < 10000 then "low"
        else if |t| < 50000 then "medium"
        else "high")
    ∧ (generate_impact_summary (999999 / 100) 0).risk_level = "low"
    ∧ (generate_impact_summary 10000 0).risk_level = "medium"
    ∧ (generate_impact_summary (4999999 / 100) 0).risk_level = "medium"
    ∧ (generate_impact_summary 50000 0).risk_level = "high" := by
  refine ⟨fun _ _ => rfl, ?_, ?_, ?_, ?_⟩
  · show (if |(999999 / 100 : ℚ)| < 10000 then "low"
      else if |(999999 / 100 : ℚ)| < 50000 then "medium" else "high") = "low"
    rw [if_pos (by rw [abs_of_pos (by norm_num)]; norm_num)]
  · show (if |(10000 : ℚ)| < 10000 then "low"
      else if |(10000 : ℚ)| < 50000 then "medium" else "high") = "medium"
    rw [if_neg (by rw [abs_of_pos (by norm_num)]; norm_num),
      if_pos (by rw [abs_of_pos (by norm_num)]; norm_num)]
  · show (if |(4999999 / 100 : ℚ)| < 10000 then "low"
      else if |(4999999 / 100 : ℚ)| < 50000 then "medium" else "high")
        = "medium"
    rw [if_neg (by rw [abs_of_pos (by norm_num)]; norm_num),
      if_pos (by rw [abs_of_pos (by norm_num)]; norm_num)]
  · show (if |(50000 : ℚ)| < 10000 then "low"
      else if |(50000 : ℚ)| < 50000 then "medium" else "high") = "high"
    rw [if_neg (by rw [abs_of_pos (by norm_num)]; norm_num),
      if_neg (by rw [abs_of_pos (by norm_num)]; norm_num)]

/-! ### Claim C5 -/

/-- All cell amounts of a snapshot are non-negative — the spec's data-model
invariant for the stored budget plan (`Amount` is a non-negative decimal),
which is what makes `original_total > 0` and `original_total != 0`
coincide. -/
def Nonneg (b : Budgets) : Prop := ∀ p ∈ b, ∀ q ∈ p.2, 0 ≤ q.2

instance (b : Budgets) : Decidable (Nonneg b) := by
  unfold Nonneg
  infer_instance

theorem monthTotal_nonneg {b : Budgets} (h : Nonneg b) (m : String) :
    0 ≤ monthTotal b m := by
  unfold monthTotal sumVals
  cases hg : dget b m with
  | none => simp
  | some mm =>
    simp only [Option.getD_some]
    apply List.sum_nonneg
    intro x hx
    rcases List.mem_map.mp hx with ⟨q, hq, he⟩
    exact he ▸ h (m, mm) (mem_of_dget_eq_some hg) q hq

/-- Shape of every emitted monthly entry: a non-negative `original_total`
(for a non-negative original snapshot) and the source's guarded
`change_percent` formula. -/
def EntryOk (e : MonthEntry) : Prop :=
  0 ≤ e.original_total
  ∧ e.change_percent
      = if e.original_total > 0 then e.change / e.original_total * 100 else 0

theorem monthStep_entries (o s : Budgets) (ho : Nonneg o) (acc : MonthAcc)
    (m : String) (hacc : ∀ p ∈ acc.monthly_changes, EntryOk p.2) :
    ∀ p ∈ (monthStep o s acc m).monthly_changes, EntryOk p.2 := by
  intro p hp
  simp only [monthStep] at hp
  split at hp
  · rcases List.mem_append.mp hp with h1 | h2
    · exact hacc p h1
    · have hpe := List.mem_singleton.mp h2
      subst hpe
      refine ⟨monthTotal_nonneg ho m, rfl⟩
  · exact hacc p hp

theorem foldl_monthStep_entries (o s : Budgets) (ho : Nonneg o)
    (months : List String) (acc : MonthAcc)
    (hacc : ∀ p ∈ acc.monthly_changes, EntryOk p.2) :
    ∀ p ∈ (months.foldl (monthStep o s) acc).monthly_changes, EntryOk p.2 := by
  induction months generalizing acc with
  | nil => exact hacc
  | cons m rest ih => exact ih _ (monthStep_entries o s ho acc m hacc)

/-- Claim **C5**.  `change_percent` formula with explicit-zero guard: on a
non-negative original snapshot (the data-model invariant of the budget
store), every emitted monthly entry has
`change_percent = change / original_total * 100` whenever
`original_total ≠ 0`, and `change_percent = 0` when `original_total = 0`;
the computation is total, so no division error can reach the report. -/
theorem c5_change_percent_guard (original simulated : Budgets)
    (h : Nonneg original) (m : String) (e : MonthEntry)
    (hm : (m, e) ∈ (calculate_impact original simulated).monthly_changes) :
    (e.original_total ≠ 0 →
      e.change_percent = e.change / e.original_total * 100)
    ∧ (e.original_total = 0 → e.change_percent = 0) := by
  have hE : EntryOk e := by
    have hc : (calculate_impact original simulated).monthly_changes
        = (monthlyPart original simulated).monthly_changes := rfl
    rw [hc] at hm
    exact foldl_monthStep_entries original simulated h PLANNING_MONTHS
      ⟨[], 0, 0⟩ (by simp) (m, e) hm
  constructor
  · intro hne
    have hpos : e.original_total > 0 := lt_of_le_of_ne hE.1 (Ne.symm hne)
    rw [hE.2, if_pos hpos]
  · intro h0
    rw [hE.2, h0]
    simp

def c5O : Budgets := [("Aug-25", [(some "Food", 5000)])]

def c5S : Budgets := [("Aug-25", [(some "Food", 6000)])]

def c5E : MonthEntry :=
  { original_total := 5000, simulated_total := 6000,
    change := 1000, change_percent := 20 }

theorem monthStep_none (o s : Budgets) (acc : MonthAcc) (m : String)
    (ho : dget o m = none) (hs : dget s m = none) :
    monthStep o s acc m = acc := by
  simp [monthStep, ho, hs, sumVals]

theorem foldl_monthStep_none (o s : Budgets) (months : List String)
    (acc : MonthAcc) (h : ∀ m ∈ months, dget o m = none ∧ dget s m = none) :
    months.foldl (monthStep o s) acc = acc := by
  induction months generalizing acc with
  | nil => rfl
  | cons m rest ih =>
    rw [List.foldl_cons,
      monthStep_none o s acc m (h m (List.mem_cons_self _ _)).1
        (h m (List.mem_cons_self _ _)).2]
    exact ih _ (fun x hx => h x (List.mem_cons_of_mem _ hx))

theorem c5_eval :
    (calculate_impact c5O c5S).monthly_changes = [("Aug-25", c5E)] := by
  have hc : (calculate_impact c5O c5S).monthly_changes
      = (monthlyPart c5O c5S).monthly_changes := rfl
  rw [hc]
  unfold monthlyPart
  rw [pm_eq]
  rw [List.foldl_cons]
  have h1 : monthStep c5O c5S ⟨[], 0, 0⟩ "Aug-25"
      = ⟨[("Aug-25", c5E)], 6000 - 5000, 1⟩ := by
    simp only [monthStep, c5O, c5S, dget, sumVals]
    norm_num [c5E]
  rw [h1, foldl_monthStep_none c5O c5S _ _ (by decide)]

theorem c5_witness :
    Nonneg c5O
    ∧ ("Aug-25", c5E) ∈ (calculate_impact c5O c5S).monthly_changes
    ∧ c5E.change_percent = c5E.change / c5E.original_total * 100 :=
  ⟨by decide, by rw [c5_eval]; exact List.mem_singleton.mpr rfl,
    (c5_change_percent_guard c5O c5S (by decide) "Aug-25" c5E
      (by rw [c5_eval]; exact List.mem_singleton.mpr rfl)).1 (by decide)⟩

/-! ### Cell-level characterisation of the applicator steps -/

theorem getCell_dset_ne_month (b : Budgets) (month : String) (mm : MonthMap)
    {m : String} (h : m ≠ month) (c : Cat) :
    getCell (dset b month mm) m c = getCell b m c := by
  unfold getCell
  rw [dget_dset_ne b mm h]


theorem getCell_dset_month (b : Budgets) (month : String) (mm : MonthMap)
    (c : Cat) : getCell (dset b month mm) month c = dget mm c := by
  unfold getCell
  rw [dget_dset_self]
  rfl

theorem adjStep_of_no_month (cat : Cat) (f : ℚ → ℚ) (b : Budgets) (i : Nat)
    (h : dget b (PLANNING_MONTHS.getD i "") = none) :
    adjStep cat f b i = b := by
  simp only [adjStep, h]

theorem adjStep_of_no_cat (cat : Cat) (f : ℚ → ℚ) (b : Budgets) (i : Nat)
    (mm : MonthMap) (h : dget b (PLANNING_MONTHS.getD i "") = some mm)
    (h2 : dget mm cat = none) : adjStep cat f b i = b := by
  simp only [adjStep, h, h2]

theorem adjStep_of_present (cat : Cat) (f : ℚ → ℚ) (b : Budgets) (i : Nat)
    (mm : MonthMap) (v : ℚ) (h : dget b (PLANNING_MONTHS.getD i "") = some mm)
    (h2 : dget mm cat = some v) :
    adjStep cat f b i = dset b (PLANNING_MONTHS.getD i "") (dset mm cat (f v)) := by
  simp only [adjStep, h, h2]

/-- One pause/double iteration, seen through `getCell`: exactly the cell at
this iteration's month and the change's category is transformed by `f`, and
only when present (`Option.map`); every other cell, and an absent cell, is
untouched. -/
theorem adjStep_getCell (cat : Cat) (f : ℚ → ℚ) (b : Budgets) (i : Nat)
    (m : String) (c' : Cat) :
    getCell (adjStep cat f b i) m c'
      = if m = PLANNING_MONTHS.getD i "" ∧ c' = cat
          then (getCell b m c').map f
          else getCell b m c' := by
  by_cases hm : m = PLANNING_MONTHS.getD i ""
  case neg =>
    rw [if_neg (fun h => hm h.1)]
    cases hbm : dget b (PLANNING_MONTHS.getD i "") with
    | none => rw [adjStep_of_no_month cat f b i hbm]
    | some mm =>
      cases hmc : dget mm cat with
      | none => rw [adjStep_of_no_cat cat f b i mm hbm hmc]
      | some v =>
        rw [adjStep_of_present cat f b i mm v hbm hmc]
        exact getCell_dset_ne_month b _ _ hm c'
  case pos =>
    by_cases hc : c' = cat
    case neg =>
      rw [if_neg (fun h => hc h.2)]
      cases hbm : dget b (PLANNING_MONTHS.getD i "") with
      | none => rw [adjStep_of_no_month cat f b i hbm]
      | some mm =>
        cases hmc : dget mm cat with
        | none => rw [adjStep_of_no_cat cat f b i mm hbm hmc]
        | some v =>
          rw [adjStep_of_present cat f b i mm v hbm hmc, hm,
            getCell_dset_month, dget_dset_ne mm (f v) hc]
          unfold getCell
          rw [hbm]
          rfl
    case pos =>
      rw [if_pos ⟨hm, hc⟩]
      cases hbm : dget b (PLANNING_MONTHS.getD i "") with
      | none =>
        rw [adjStep_of_no_month cat f b i hbm]
        unfold getCell
        rw [hm, hbm]
        simp [dget]
      | some mm =>
        cases hmc : dget mm cat with
        | none =>
          rw [adjStep_of_no_cat cat f b i mm hbm hmc]
          unfold getCell
          rw [hm, hc, hbm]
          simp [hmc]
        | some v =>
          rw [adjStep_of_present cat f b i mm v hbm hmc, hm, hc,
            getCell_dset_month, dget_dset_self]
          have hR : getCell b (PLANNING_MONTHS.getD i "") cat = some v := by
            unfold getCell
            rw [hbm]
            simpa using hmc
          rw [hR]
          rfl

theorem bumpStep_of_no_month (cat : Cat) (ac : ℚ) (b : Budgets) (i : Nat)
    (h : dget b (PLANNING_MONTHS.getD i "") = none) :
    bumpStep cat ac b i
      = dset (dset b (PLANNING_MONTHS.getD i "") [])
          (PLANNING_MONTHS.getD i "") [(cat, 0 + ac)] := by
  simp only [bumpStep, h]
  simp [dget_dset_self, dget, dset]

theorem bumpStep_of_no_cat (cat : Cat) (ac : ℚ) (b : Budgets) (i : Nat)
    (mm : MonthMap) (h : dget b (PLANNING_MONTHS.getD i "") = some mm)
    (h2 : dget mm cat = none) :
    bumpStep cat ac b i
      = dset b (PLANNING_MONTHS.getD i "")
          (dset (dset mm cat 0) cat (0 + ac)) := by
  simp only [bumpStep]
  revert h h2
  generalize PLANNING_MONTHS.getD i "" = month
  intro h h2
  simp [h, h2, dget_dset_self]

theorem bumpStep_of_present (cat : Cat) (ac : ℚ) (b : Budgets) (i : Nat)
    (mm : MonthMap) (w : ℚ) (h : dget b (PLANNING_MONTHS.getD i "") = some mm)
    (h2 : dget mm cat = some w) :
    bumpStep cat ac b i
      = dset b (PLANNING_MONTHS.getD i "") (dset mm cat (w + ac)) := by
  simp only [bumpStep]
  revert h h2
  generalize PLANNING_MONTHS.getD i "" = month
  intro h h2
  simp [h, h2]

/-- One `budget_change` iteration, seen through `getCell`: the cell at this
iteration's month and the change's category becomes its previous value
(default 0, the row and cell being created on demand) plus the delta; every
other cell reads as before. -/
theorem bumpStep_getCell (cat : Cat) (ac : ℚ) (b : Budgets) (i : Nat)
    (m : String) (c' : Cat) :
    getCell (bumpStep cat ac b i) m c'
      = if m = PLANNING_MONTHS.getD i "" ∧ c' = cat
          then some ((getCell b m c').getD 0 + ac)
          else getCell b m c' := by
  by_cases hm : m = PLANNING_MONTHS.getD i ""
  case neg =>
    rw [if_neg (fun h => hm h.1)]
    cases hbm : dget b (PLANNING_MONTHS.getD i "") with
    | none =>
      rw [bumpStep_of_no_month cat ac b i hbm,
        getCell_dset_ne_month _ _ _ hm, getCell_dset_ne_month _ _ _ hm]
    | some mm =>
      cases hmc : dget mm cat with
      | none =>
        rw [bumpStep_of_no_cat cat ac b i mm hbm hmc,
          getCell_dset_ne_month _ _ _ hm]
      | some w =>
        rw [bumpStep_of_present cat ac b i mm w hbm hmc,
          getCell_dset_ne_month _ _ _ hm]
  case pos =>
    by_cases hc : c' = cat
    case neg =>
      rw [if_neg (fun h => hc h.2), hm]
      cases hbm : dget b (PLANNING_MONTHS.getD i "") with
      | none =>
        rw [bumpStep_of_no_month cat ac b i hbm, getCell_dset_month]
        unfold getCell
        rw [hbm]
        have hcc : ¬ cat = c' := fun e => hc e.symm
        simp [dget, hcc]
      | some mm =>
        cases hmc : dget mm cat with
        | none =>
          rw [bumpStep_of_no_cat cat ac b i mm hbm hmc, getCell_dset_month,
            dget_dset_ne _ _ hc, dget_dset_ne _ _ hc]
          unfold getCell
          rw [hbm]
          rfl
        | some w =>
          rw [bumpStep_of_present cat ac b i mm w hbm hmc, getCell_dset_month,
            dget_dset_ne _ _ hc]
          unfold getCell
          rw [hbm]
          rfl
    case pos =>
      rw [if_pos ⟨hm, hc⟩, hm, hc]
      cases hbm : dget b (PLANNING_MONTHS.getD i "") with
      | none =>
        rw [bumpStep_of_no_month cat ac b i hbm, getCell_dset_month]
        have hR : getCell b (PLANNING_MONTHS.getD i "") cat = none := by
          unfold getCell
          rw [hbm]
          simp [dget]
        rw [hR]
        simp [dget]
      | some mm =>
        cases hmc : dget mm cat with
        | none =>
          rw [bumpStep_of_no_cat cat ac b i mm hbm hmc, getCell_dset_month,
            dget_dset_self]
          have hR : getCell b (PLANNING_MONTHS.getD i "") cat = none := by
            unfold getCell
            rw [hbm]
            simpa using hmc
          rw [hR]
          rfl
        | some w =>
          rw [bumpStep_of_present cat ac b i mm w hbm hmc, getCell_dset_month,
            dget_dset_self]
          have hR : getCell b (PLANNING_MONTHS.getD i "") cat = some w := by
            unfold getCell
            rw [hbm]
            simpa using hmc
          rw [hR]
          rfl

/-! ### Folding a per-index step over a range of horizon indices -/

theorem pm_index_inj {i j : Nat} (hi : i < PLANNING_MONTHS.length)
    (hj : j < PLANNING_MONTHS.length)
    (h : PLANNING_MONTHS.getD i "" = PLANNING_MONTHS.getD j "") : i = j := by
  rw [List.getD_eq_getElem _ _ hi, List.getD_eq_getElem _ _ hj] at h
  have h1 := List.indexOf_getElem planning_months_nodup i hi
  have h2 := List.indexOf_getElem planning_months_nodup j hj
  rw [h] at h1
  exact h1.symm.trans h2

theorem pm_getD_indexOf {m : String} (h : m ∈ PLANNING_MONTHS) :
    PLANNING_MONTHS.getD (PLANNING_MONTHS.indexOf m) "" = m := by
  have hlt : PLANNING_MONTHS.indexOf m < PLANNING_MONTHS.length :=
    List.indexOf_lt_length.mpr h
  rw [List.getD_eq_getElem _ _ hlt]
  exact List.getElem_indexOf hlt

/-- Folding a step that rewrites exactly the (month of `i`, `cat`) cell by
`T` over a duplicate-free list of in-range indices rewrites exactly the
cells of the listed months, once each. -/
theorem foldl_step_getCell {g : Budgets → Nat → Budgets} {cat : Cat}
    (T : Option ℚ → Option ℚ)
    (hstep : ∀ (b : Budgets) (i : Nat) (m : String) (c' : Cat),
      getCell (g b i) m c'
        = if m = PLANNING_MONTHS.getD i "" ∧ c' = cat
            then T (getCell b m c') else getCell b m c')
    (I : List Nat) (hI : I.Nodup)
    (hlt : ∀ i ∈ I, i < PLANNING_MONTHS.length)
    (b : Budgets) (m : String) (c' : Cat) :
    getCell (I.foldl g b) m c'
      = if (∃ i ∈ I, PLANNING_MONTHS.getD i "" = m) ∧ c' = cat
          then T (getCell b m c') else getCell b m c' := by
  induction I generalizing b with
  | nil => simp
  | cons i0 I' ih =>
    have hI' : I'.Nodup := (List.nodup_cons.mp hI).2
    have hi0 : i0 ∉ I' := (List.nodup_cons.mp hI).1
    have hlt' : ∀ i ∈ I', i < PLANNING_MONTHS.length :=
      fun i hi => hlt i (List.mem_cons_of_mem _ hi)
    rw [List.foldl_cons, ih hI' hlt']
    by_cases hc : c' = cat
    case neg =>
      rw [hstep]
      simp only [hc, and_false, if_false]
    case pos =>
      by_cases hm : PLANNING_MONTHS.getD i0 "" = m
      case pos =>
        have hnone : ¬ ∃ i ∈ I', PLANNING_MONTHS.getD i "" = m := by
          rintro ⟨i, hiI, hieq⟩
          exact hi0 (pm_index_inj (hlt' i hiI)
            (hlt i0 (List.mem_cons_self _ _)) (hieq.trans hm.symm) ▸ hiI)
        rw [if_neg (fun hand => hnone hand.1), hstep,
          if_pos ⟨hm.symm, hc⟩,
          if_pos ⟨⟨i0, List.mem_cons_self _ _, hm⟩, hc⟩]
      case neg =>
        have hg0 : getCell (g b i0) m c' = getCell b m c' := by
          rw [hstep]
          exact if_neg (fun hand => hm (hand.1.symm))
        rw [hg0]
        have hcond : ((∃ i ∈ I', PLANNING_MONTHS.getD i "" = m) ∧ c' = cat)
            ↔ ((∃ i ∈ i0 :: I', PLANNING_MONTHS.getD i "" = m) ∧ c' = cat) := by
          constructor
          · rintro ⟨⟨i, hiI, hieq⟩, hcc⟩
            exact ⟨⟨i, List.mem_cons_of_mem _ hiI, hieq⟩, hcc⟩
          · rintro ⟨⟨i, hiI, hieq⟩, hcc⟩
            rcases List.mem_cons.mp hiI with h1 | h2
            · exact absurd (h1 ▸ hieq) hm
            · exact ⟨⟨i, h2, hieq⟩, hcc⟩
        rw [if_congr hcond rfl rfl]

/-! ### Reducing `apply_change` to its branches -/

/-- A `budget_change` dict (the default type when the `type` key is
absent). -/
def budgetCh (cat : Cat) (ac : Option ℚ) (sm em : Option String) : Change where
  type := some "budget_change"
  category := cat
  amount_change := ac
  start_month := sm
  end_month := em

/-- An `investment_adjustment` dict. -/
def investCh (cat : Cat) (kind : String) (sm em : Option String) : Change where
  type := some "investment_adjustment"
  category := cat
  adjustment_type := some kind
  start_month := sm
  end_month := em

/-- A `one_time_event` dict with an explicit `event_month`. -/
def oneTimeCh (cat : Cat) (em : String) (amt : Option ℚ) : Change where
  type := some "one_time_event"
  category := cat
  event_month := some em
  amount := amt

theorem apply_change_budget (b : Budgets) (cat : Cat) (ac : Option ℚ)
    (sm em : Option String) :
    apply_change b (budgetCh cat ac sm em)
      = (idxRange (startIdx sm) (endIdx em)).foldl
          (bumpStep cat (ac.getD 0)) b := rfl

theorem apply_change_pause (b : Budgets) (cat : Cat) (sm em : Option String) :
    apply_change b (investCh cat "pause" sm em)
      = (idxRange (startIdx sm) (endIdx em)).foldl
          (adjStep cat (fun _ => 0)) b := rfl

theorem apply_change_double (b : Budgets) (cat : Cat) (sm em : Option String) :
    apply_change b (investCh cat "double" sm em)
      = (idxRange (startIdx sm) (endIdx em)).foldl
          (adjStep cat (· * 2)) b := rfl

theorem apply_change_one_time (b : Budgets) (cat : Cat) (em : String)
    (amt : Option ℚ) :
    apply_change b (oneTimeCh cat em amt)
      = match dget b em with
        | some mm =>
          dset b em
            (dset (if (dget mm cat).isSome then mm else dset mm cat 0) cat
              ((dget (if (dget mm cat).isSome then mm
                  else dset mm cat 0) cat).getD 0 + amt.getD 0))
        | none => b := rfl

theorem apply_change_one_time_present (b : Budgets) (cat : Cat) (em : String)
    (amt : Option ℚ) (mm : MonthMap) (hmm : dget b em = some mm) :
    apply_change b (oneTimeCh cat em amt)
      = dset b em
          (dset (if (dget mm cat).isSome then mm else dset mm cat 0) cat
            ((dget (if (dget mm cat).isSome then mm
                else dset mm cat 0) cat).getD 0 + amt.getD 0)) := by
  rw [apply_change_one_time, hmm]

theorem idxRange_nodup (s e : Nat) : (idxRange s e).Nodup :=
  List.nodup_range' s _

theorem mem_idxRange {i s e : Nat} : i ∈ idxRange s e ↔ s ≤ i ∧ i < e + 1 := by
  unfold idxRange
  rw [List.mem_range'_1]
  omega

/-- Month `m` is one of the months the loop over horizon positions `s..e`
touches. -/
def monthInR (s e : Nat) (m : String) : Prop :=
  ∃ i ∈ idxRange s e, PLANNING_MONTHS.getD i "" = m

instance (s e : Nat) (m : String) : Decidable (monthInR s e m) := by
  unfold monthInR
  infer_instance

/-! ### Claim C8 -/

/-- Claim **C8**.  Investment Adjustment semantics: over a valid month range
(both endpoints in the horizon, start not after end), `pause` zeroes and
`double` doubles the category's cell for exactly the months of the range
where the cell exists (`Option.map`: an absent cell stays absent — no new
entry — and every other cell is untouched). -/
theorem c8_investment_adjustment (b : Budgets) (cat : Cat) (sm em : String)
    (hs : sm ∈ PLANNING_MONTHS) (he : em ∈ PLANNING_MONTHS)
    (hle : PLANNING_MONTHS.indexOf sm ≤ PLANNING_MONTHS.indexOf em)
    (m : String) (c' : Cat) :
    (getCell (apply_change b (investCh cat "pause" (some sm) (some em))) m c'
      = if monthInR (PLANNING_MONTHS.indexOf sm)
            (PLANNING_MONTHS.indexOf em) m ∧ c' = cat
          then (getCell b m c').map (fun _ => 0)
          else getCell b m c')
    ∧ (getCell (apply_change b (investCh cat "double" (some sm) (some em))) m c'
      = if monthInR (PLANNING_MONTHS.indexOf sm)
            (PLANNING_MONTHS.indexOf em) m ∧ c' = cat
          then (getCell b m c').map (· * 2)
          else getCell b m c') := by
  have hsi : startIdx (some sm) = PLANNING_MONTHS.indexOf sm := by
    simp [startIdx, hs]
  have hei : endIdx (some em) = PLANNING_MONTHS.indexOf em := by
    simp [endIdx, he]
  have hlt : ∀ i ∈ idxRange (PLANNING_MONTHS.indexOf sm)
      (PLANNING_MONTHS.indexOf em), i < PLANNING_MONTHS.length := by
    intro i hi
    have h2 := (mem_idxRange.mp hi).2
    have h3 : PLANNING_MONTHS.indexOf em < PLANNING_MONTHS.length :=
      List.indexOf_lt_length.mpr he
    omega
  constructor
  · rw [apply_change_pause, hsi, hei]
    exact foldl_step_getCell (fun o => o.map (fun _ => 0))
      (adjStep_getCell cat (fun _ => 0)) _ (idxRange_nodup _ _) hlt b m c'
  · rw [apply_change_double, hsi, hei]
    exact foldl_step_getCell (fun o => o.map (· * 2))
      (adjStep_getCell cat (· * 2)) _ (idxRange_nodup _ _) hlt b m c'

def c8B : Budgets := [("Sep-25", [(some "MF", 100)])]

theorem c8_witness :
    getCell (apply_change c8B
        (investCh (some "MF") "pause" (some "Aug-25") (some "Oct-25")))
      "Sep-25" (some "MF") = some 0
    ∧ getCell (apply_change c8B
        (investCh (some "MF") "double" (some "Aug-25") (some "Oct-25")))
      "Sep-25" (some "MF") = some (100 * 2)
    ∧ getCell (apply_change c8B
        (investCh (some "MF") "pause" (some "Aug-25") (some "Oct-25")))
      "Sep-25" (some "Rent") = getCell c8B "Sep-25" (some "Rent") :=
  ⟨((c8_investment_adjustment c8B (some "MF") "Aug-25" "Oct-25" (by decide)
      (by decide) (by decide) "Sep-25" (some "MF")).1).trans
    (by rw [if_pos ⟨by decide, rfl⟩]; rfl),
   ((c8_investment_adjustment c8B (some "MF") "Aug-25" "Oct-25" (by decide)
      (by decide) (by decide) "Sep-25" (some "MF")).2).trans
    (by rw [if_pos ⟨by decide, rfl⟩]; rfl),
   ((c8_investment_adjustment c8B (some "MF") "Aug-25" "Oct-25" (by decide)
      (by decide) (by decide) "Sep-25" (some "Rent")).1).trans
    (by rw [if_neg (fun h => by simp at h)])⟩

/-! ### Claim C4 -/

/-- Claim **C4** (amended).  One-Time Event semantics for an `eventMonth` that is
a key of the snapshot: the cell at (`eventMonth`, `category`) becomes its
previous value (0 if the category was absent) plus `amount`; every other
month row and every other category cell of `eventMonth` reads exactly as
before.  (The source guards on `event_month in budgets`, not on membership
in the planning horizon — see the counterexample.) -/
theorem c4_one_time_event (b : Budgets) (cat : Cat) (em : String) (amt : ℚ)
    (h : (dget b em).isSome = true) :
    ((getCell (apply_change b (oneTimeCh cat em (some amt))) em cat).getD 0
      = (getCell b em cat).getD 0 + amt)
    ∧ (getCell (apply_change b (oneTimeCh cat em (some amt))) em cat).isSome
        = true
    ∧ (∀ m, m ≠ em →
        dget (apply_change b (oneTimeCh cat em (some amt))) m = dget b m)
    ∧ (∀ c', c' ≠ cat →
        getCell (apply_change b (oneTimeCh cat em (some amt))) em c'
          = getCell b em c') := by
  obtain ⟨mm, hmm⟩ := Option.isSome_iff_exists.mp h
  have hcell : ∀ c : Cat, getCell b em c = dget mm c := by
    intro c
    unfold getCell
    rw [hmm]
    rfl
  rw [apply_change_one_time_present b cat em (some amt) mm hmm]
  cases hmc : dget mm cat with
  | none =>
    rw [if_neg (by simp)]
    refine ⟨?_, ?_, ?_, ?_⟩
    · rw [getCell_dset_month, dget_dset_self, hcell cat, hmc, dget_dset_self]
      simp
    · rw [getCell_dset_month, dget_dset_self]
      rfl
    · intro m hme
      rw [dget_dset_ne b _ hme]
    · intro c' hcc
      rw [getCell_dset_month, dget_dset_ne _ _ hcc, dget_dset_ne _ _ hcc,
        hcell c']
  | some w =>
    rw [if_pos (by simp)]
    refine ⟨?_, ?_, ?_, ?_⟩
    · rw [getCell_dset_month, dget_dset_self, hcell cat, hmc]
      rfl
    · rw [getCell_dset_month, dget_dset_self]
      rfl
    · intro m hme
      rw [dget_dset_ne b _ hme]
    · intro c' hcc
      rw [getCell_dset_month, dget_dset_ne _ _ hcc, hcell c']

/-- Claim **C4** counterexample to the claim as stated: the empty snapshot and a
One-Time Event whose `eventMonth` is in the Planning Horizon.  The claim
predicts the cell becomes 0 + 2000; the code's `event_month in budgets`
guard fails (no such key), so nothing at all happens. -/
theorem c4_counterexample :
    "Aug-25" ∈ PLANNING_MONTHS
    ∧ apply_change ([] : Budgets) (oneTimeCh (some "Food") "Aug-25"
        (some 2000)) = []
    ∧ getCell (apply_change ([] : Budgets)
        (oneTimeCh (some "Food") "Aug-25" (some 2000))) "Aug-25" (some "Food")
      ≠ some ((getCell ([] : Budgets) "Aug-25" (some "Food")).getD 0 + 2000) :=
  ⟨by decide, by decide, by decide⟩

def c4B : Budgets := [("Aug-25", [(some "Food", 100)])]

theorem c4_witness :
    (dget c4B "Aug-25").isSome = true
    ∧ ((getCell (apply_change c4B (oneTimeCh (some "Food") "Aug-25"
          (some 2000))) "Aug-25" (some "Food")).getD 0
        = (getCell c4B "Aug-25" (some "Food")).getD 0 + 2000)
    ∧ (∀ c', c' ≠ some "Food" →
        getCell (apply_change c4B (oneTimeCh (some "Food") "Aug-25"
          (some 2000))) "Aug-25" c' = getCell c4B "Aug-25" c') :=
  ⟨by decide,
   (c4_one_time_event c4B (some "Food") "Aug-25" 2000 (by decide)).1,
   (c4_one_time_event c4B (some "Food") "Aug-25" 2000 (by decide)).2.2.2⟩

/-! ### Claim C9 -/

/-- A month reference the code cannot resolve against the horizon: the key
is absent (`None`) or names a month outside `PLANNING_MONTHS`. -/
def unresolvable (om : Option String) : Bool :=
  match om with
  | none => true
  | some s => decide (s ∉ PLANNING_MONTHS)

theorem startIdx_of_unresolvable {om : Option String}
    (h : unresolvable om = true) : startIdx om = 0 := by
  cases om with
  | none => rfl
  | some s =>
    simp [unresolvable] at h
    simp [startIdx, h]

theorem endIdx_of_unresolvable {om : Option String}
    (h : unresolvable om = true) :
    endIdx om = PLANNING_MONTHS.length - 1 := by
  cases om with
  | none => rfl
  | some s =>
    simp [unresolvable] at h
    simp [endIdx, h]

theorem mem_full_range {m : String} (hm : m ∈ PLANNING_MONTHS) :
    ∃ i ∈ idxRange 0 (PLANNING_MONTHS.length - 1),
      PLANNING_MONTHS.getD i "" = m := by
  refine ⟨PLANNING_MONTHS.indexOf m, ?_, pm_getD_indexOf hm⟩
  rw [mem_idxRange]
  have h1 := List.indexOf_lt_length.mpr hm
  omega

/-- Claim **C9**.  Implicit month-range fallback: an unresolvable `start_month`
silently becomes horizon index 0 and an unresolvable `end_month` index 23
(the horizon has 24 months); with both unresolvable, a recurring budget
change and both investment adjustments are applied to every one of the 24
horizon months, and the simulation still reports success (the embedding is
total: this code path raises nothing in the source either). -/
theorem c9_range_fallback (b : Budgets) (cat : Cat) (ac : ℚ)
    (os oe : Option String) (hso : unresolvable os = true)
    (heo : unresolvable oe = true) :
    startIdx os = 0
    ∧ endIdx oe = PLANNING_MONTHS.length - 1
    ∧ PLANNING_MONTHS.length = 24
    ∧ (∀ m ∈ PLANNING_MONTHS,
        getCell (apply_change b (budgetCh cat (some ac) os oe)) m cat
          = some ((getCell b m cat).getD 0 + ac))
    ∧ (∀ m ∈ PLANNING_MONTHS,
        getCell (apply_change b (investCh cat "pause" os oe)) m cat
          = (getCell b m cat).map (fun _ => 0))
    ∧ (∀ m ∈ PLANNING_MONTHS,
        getCell (apply_change b (investCh cat "double" os oe)) m cat
          = (getCell b m cat).map (· * 2))
    ∧ (∀ (sc : List (String × List Change)) (sid : String)
        (chs : List Change), dget sc sid = some chs →
        (simulate_scenario sc b sid).isOk = true) := by
  have hs0 := startIdx_of_unresolvable hso
  have he0 := endIdx_of_unresolvable heo
  have hlt : ∀ i ∈ idxRange 0 (PLANNING_MONTHS.length - 1),
      i < PLANNING_MONTHS.length := by
    intro i hi
    have h2 := (mem_idxRange.mp hi).2
    have h3 := planning_months_len
    omega
  refine ⟨hs0, he0, planning_months_len, ?_, ?_, ?_, ?_⟩
  · intro m hm
    rw [apply_change_budget, hs0, he0,
      foldl_step_getCell (fun o => some (o.getD 0 + (some ac).getD 0))
        (bumpStep_getCell cat ((some ac).getD 0)) _
        (idxRange_nodup _ _) hlt b m cat,
      if_pos ⟨mem_full_range hm, rfl⟩]
    rfl
  · intro m hm
    rw [apply_change_pause, hs0, he0,
      foldl_step_getCell (fun o => o.map (fun _ => 0))
        (adjStep_getCell cat (fun _ => 0)) _
        (idxRange_nodup _ _) hlt b m cat,
      if_pos ⟨mem_full_range hm, rfl⟩]
  · intro m hm
    rw [apply_change_double, hs0, he0,
      foldl_step_getCell (fun o => o.map (· * 2))
        (adjStep_getCell cat (· * 2)) _
        (idxRange_nodup _ _) hlt b m cat,
      if_pos ⟨mem_full_range hm, rfl⟩]
  · intro sc sid chs hch
    unfold simulate_scenario
    rw [hch]
    rfl

def c9B : Budgets := [("Sep-25", [(some "Rent", 700)])]

theorem c9_witness :
    unresolvable (some "Foo-99") = true
    ∧ unresolvable (none : Option String) = true
    ∧ startIdx (some "Foo-99") = 0
    ∧ endIdx (none : Option String) = PLANNING_MONTHS.length - 1
    ∧ getCell (apply_change c9B
        (budgetCh (some "Rent") (some 10) (some "Foo-99") none))
        "Sep-25" (some "Rent")
      = some ((getCell c9B "Sep-25" (some "Rent")).getD 0 + 10)
    ∧ (simulate_scenario
        [("s", [budgetCh (some "Rent") (some 10) (some "Foo-99") none])]
        c9B "s").isOk = true :=
  ⟨by decide, rfl,
   (c9_range_fallback c9B (some "Rent") 10 (some "Foo-99") none (by decide)
     rfl).1,
   (c9_range_fallback c9B (some "Rent") 10 (some "Foo-99") none (by decide)
     rfl).2.1,
   (c9_range_fallback c9B (some "Rent") 10 (some "Foo-99") none (by decide)
     rfl).2.2.2.1 "Sep-25" (by decide),
   (c9_range_fallback c9B (some "Rent") 10 (some "Foo-99") none (by decide)
     rfl).2.2.2.2.2.2
     [("s", [budgetCh (some "Rent") (some 10) (some "Foo-99") none])] "s"
     [budgetCh (some "Rent") (some 10) (some "Foo-99") none] (by decide)⟩

/-! ### Claim C7 -/

def c7B : Budgets := [("Jan-26", [(some "Rent", 1000)])]

def c7R : Change :=
  budgetCh (some "Rent") (some 500) (some "Jan-26") (some "Jan-26")

def c7P : Change := investCh (some "Rent") "pause" (some "Jan-26") (some "Jan-26")

/-- Claim **C7**.  Order sensitivity: the simulation applies changes strictly in
list order, each against the previous output (`applyChanges` is a left
fold, so appending a change post-composes it), and on the snapshot
`\x7bJan: \x7bRent: 1000\x7d\x7d` the recurring +500 followed by a pause leaves
`Rent = 0` while the reverse order leaves `Rent = 500` — a concrete
non-commutativity witness. -/
theorem c7_order_sensitivity :
    (∀ (b : Budgets) (cs : List Change) (c : Change),
      applyChanges b (cs ++ [c]) = apply_change (applyChanges b cs) c)
    ∧ getCell (applyChanges c7B [c7R, c7P]) "Jan-26" (some "Rent") = some 0
    ∧ getCell (applyChanges c7B [c7P, c7R]) "Jan-26" (some "Rent") = some 500
    ∧ applyChanges c7B [c7R, c7P] ≠ applyChanges c7B [c7P, c7R] := by
  have h1 : getCell (applyChanges c7B [c7R, c7P]) "Jan-26" (some "Rent")
      = some 0 := by decide
  have h2 : getCell (applyChanges c7B [c7P, c7R]) "Jan-26" (some "Rent")
      = some ((0 : ℚ) + 500) := rfl
  have h2' : getCell (applyChanges c7B [c7P, c7R]) "Jan-26" (some "Rent")
      = some 500 := by
    rw [h2]
    norm_num
  refine ⟨?_, h1, h2', ?_⟩
  · intro b cs c
    simp [applyChanges]
  · intro heq
    have h3 := h1
    rw [heq, h2'] at h3
    exact absurd (Option.some.inj h3) (by norm_num)

/-! ### Identical snapshots produce an all-zero impact -/

theorem monthStep_self (b : Budgets) (acc : MonthAcc) (m : String) :
    monthStep b b acc m = acc := by
  simp [monthStep]

theorem foldl_monthStep_self (b : Budgets) (months : List String)
    (acc : MonthAcc) : months.foldl (monthStep b b) acc = acc := by
  induction months generalizing acc with
  | nil => rfl
  | cons m rest ih => rw [List.foldl_cons, monthStep_self, ih]

theorem calculate_impact_self (b : Budgets) :
    (calculate_impact b b).total_impact = 0
    ∧ (calculate_impact b b).affected_months = 0
    ∧ (calculate_impact b b).monthly_changes = [] := by
  have h : monthlyPart b b = ⟨[], 0, 0⟩ := foldl_monthStep_self b _ _
  unfold calculate_impact
  rw [h]
  exact ⟨rfl, rfl, rfl⟩

theorem simulate_scenario_ok (sc : List (String × List Change)) (b : Budgets)
    (sid : String) (chs : List Change) (h : dget sc sid = some chs) :
    simulate_scenario sc b sid
      = Except.ok
          { changes := chs
            impact := calculate_impact b (applyChanges b chs)
            original_budgets := b
            simulated_budgets := applyChanges b chs } := by
  unfold simulate_scenario
  rw [h]

/-! ### Claim C3 -/

def c3B : Budgets := [("Aug-25", [(some "Rent", 1000)])]

def c3CH : Change :=
  budgetCh (some "Rent") (some 500) (some "Aug-25") (some "Aug-25")

/-- Claim **C3** counterexample to the claim as stated: `apply_change` mutates
the snapshot it is handed (the embedding returns the post-call state of
the caller's `budgets` object, and that state differs from the pre-call
one), so the snapshot passed to `apply` is not left unchanged. -/
theorem c3_counterexample :
    apply_change c3B c3CH ≠ c3B
    ∧ getCell (apply_change c3B c3CH) "Aug-25" (some "Rent")
        = some (1000 + 500) := by
  constructor
  · intro h
    have h2 : getCell (apply_change c3B c3CH) "Aug-25" (some "Rent")
        = some (1000 + 500) := rfl
    rw [h] at h2
    have h3 : getCell c3B "Aug-25" (some "Rent") = some 1000 := rfl
    rw [h3] at h2
    exact absurd (Option.some.inj h2) (by norm_num)
  · rfl

/-- Claim **C3** (amended).  `apply_change` updates its snapshot in place, but
`simulate_scenario` deep-copies the budget store's state before applying
anything: every successful simulation hands back the pre-call store state
unchanged as `original_budgets`, and the store itself (a value here, as the
source's `deepcopy` guarantees) is never written. -/
theorem c3_simulate_preserves_input :
    ∀ (sc : List (String × List Change)) (b : Budgets) (sid : String),
      (match simulate_scenario sc b sid with
        | Except.ok r => r.original_budgets = b
        | Except.error _ => True) := by
  intro sc b sid
  unfold simulate_scenario
  cases dget sc sid <;> simp

/-! ### Claim C2 -/

def c2B : Budgets := [("Aug-25", [(some "Rent", 1000)])]

def c2CH : Change :=
  budgetCh (some "Rent") (some 500) (some "Sep-25") (some "Aug-25")

/-- Claim **C2** (evaluating the code at the failing input).  A recurring budget
change whose `start_month` ("Sep-25") comes strictly after its `end_month`
("Aug-25") in horizon order: `simulate_scenario` does not return any
error — it returns a normal success result in which the change was applied
to an empty month range, with zero impact.  The ValidationError the claim
requires does not exist anywhere in `scenario_simulator.py`. -/
theorem c2_no_validation_error :
    "Sep-25" ∈ PLANNING_MONTHS
    ∧ "Aug-25" ∈ PLANNING_MONTHS
    ∧ PLANNING_MONTHS.indexOf "Aug-25" < PLANNING_MONTHS.indexOf "Sep-25"
    ∧ apply_change c2B c2CH = c2B
    ∧ simulate_scenario [("s1", [c2CH])] c2B "s1"
        = Except.ok
            { changes := [c2CH]
              impact := calculate_impact c2B c2B
              original_budgets := c2B
              simulated_budgets := c2B }
    ∧ (simulate_scenario [("s1", [c2CH])] c2B "s1").isOk = true
    ∧ (calculate_impact c2B c2B).total_impact = 0
    ∧ (calculate_impact c2B c2B).affected_months = 0 := by
  have hap : applyChanges c2B [c2CH] = c2B := by decide
  have hsim := simulate_scenario_ok [("s1", [c2CH])] c2B "s1" [c2CH]
    (by decide)
  rw [hap] at hsim
  refine ⟨by decide, by decide, by decide, by decide, hsim, ?_,
    (calculate_impact_self c2B).1, (calculate_impact_self c2B).2.1⟩
  rw [hsim]
  rfl

/-! ### Claim C10 -/

/-- The change's `type` key holds a string other than the three the
applicator branches on. -/
def unknownType (ch : Change) : Bool :=
  match ch.type with
  | some t => decide (t ≠ "budget_change" ∧ t ≠ "one_time_event"
      ∧ t ≠ "investment_adjustment")
  | none => false

theorem apply_change_unknown (b : Budgets) (ch : Change)
    (h : unknownType ch = true) : apply_change b ch = b := by
  cases hty : ch.type with
  | none => simp [unknownType, hty] at h
  | some t =>
    simp [unknownType, hty] at h
    simp [apply_change, hty, h.1, h.2.1, h.2.2]

theorem applyChanges_unknown (b : Budgets) (chs : List Change)
    (h : ∀ ch ∈ chs, unknownType ch = true) : applyChanges b chs = b := by
  induction chs with
  | nil => rfl
  | cons ch rest ih =>
    unfold applyChanges
    rw [List.foldl_cons,
      apply_change_unknown b ch (h ch (List.mem_cons_self _ _))]
    exact ih (fun x hx => h x (List.mem_cons_of_mem _ hx))

/-- Claim **C10**.  Unknown-change-type tolerance: a change whose `type` string
matches none of the three known kinds falls through every branch of
`apply_change` and leaves the snapshot untouched; a scenario consisting
only of such changes simulates to a normal success result with
`total_impact = 0` and `affected_months = 0`; and a change with no `type`
key at all behaves exactly as one typed `budget_change`. -/
theorem c10_unknown_type_tolerance :
    (∀ (b : Budgets) (ch : Change), unknownType ch = true →
      apply_change b ch = b)
    ∧ (∀ (b : Budgets) (ch : Change), ch.type = none →
      apply_change b ch
        = apply_change b { ch with type := some "budget_change" })
    ∧ (∀ (sc : List (String × List Change)) (b : Budgets) (sid : String)
        (chs : List Change), dget sc sid = some chs →
        (∀ ch ∈ chs, unknownType ch = true) →
        (simulate_scenario sc b sid).toOption.map
            (fun r => (r.impact.total_impact, r.impact.affected_months))
          = some (0, 0)) := by
  refine ⟨apply_change_unknown, ?_, ?_⟩
  · intro b ch h
    simp [apply_change, h]
  · intro sc b sid chs hch hall
    rw [simulate_scenario_ok sc b sid chs hch, applyChanges_unknown b chs hall]
    simp [Except.toOption, (calculate_impact_self b).1,
      (calculate_impact_self b).2.1]

def c10B : Budgets := [("Aug-25", [(some "Rent", 1000)])]

def c10CH : Change where
  type := some "mystery"
  category := some "Rent"

def c10NT : Change where
  category := some "Rent"
  amount_change := some 250

theorem c10_witness :
    unknownType c10CH = true
    ∧ apply_change c10B c10CH = c10B
    ∧ c10NT.type = none
    ∧ apply_change c10B c10NT
        = apply_change c10B { c10NT with type := some "budget_change" }
    ∧ (simulate_scenario [("s", [c10CH])] c10B "s").toOption.map
        (fun r => (r.impact.total_impact, r.impact.affected_months))
      = some (0, 0) :=
  ⟨by decide,
   c10_unknown_type_tolerance.1 c10B c10CH (by decide),
   rfl,
   c10_unknown_type_tolerance.2.1 c10B c10NT rfl,
   c10_unknown_type_tolerance.2.2 [("s", [c10CH])] c10B "s" [c10CH]
     (by decide) (by decide)⟩
